import Mathlib

/-!
Verification development for the darklake sdk-on-chain-examples repository
(`src/main.rs`, `src/utils.rs`): the order lifecycle decision logic, the
retry-polling loop, the wrap/unwrap instruction builders, the transaction
assembly of the example flows, and the keypair loader.
-/

/-- Ledger addresses. `raw n` stands for an arbitrary public key; `ata owner mint`
is the associated token account address derived from an owner and a mint
(`get_associated_token_address` in `utils.rs`); `nativeMint` is `spl_token::native_mint::ID`
(the WSOL mint) and `splTokenProgram` is `spl_token::ID`. -/
inductive Pubkey
  | raw (n : Nat)
  | ata (owner mint : Pubkey)
  | nativeMint
  | splTokenProgram
deriving DecidableEq

/-- Mirrors `get_associated_token_address(&owner, &mint)` from
`spl_associated_token_account`, used in `utils.rs` lines 26 and 57:
a deterministic address derivation from owner and mint. -/
def getAssociatedTokenAddress (owner mint : Pubkey) : Pubkey :=
  Pubkey.ata owner mint

/-- Swap parameters, mirroring `SwapParamsIx` as filled in `main.rs`
(for example lines 81 to 89). Swap mode is exact-in only in this core, so it
is not carried. -/
structure SwapParams where
  sourceMint : Pubkey
  destinationMint : Pubkey
  tokenTransferAuthority : Pubkey
  inAmount : Nat
  minOut : Nat
  salt : List Nat
deriving DecidableEq

/-- Modelled from the spec: the opaque Commitment of section 3 binds
`(min_out, salt)`; it is produced by the Commitment Builder inside the darklake
SDK, which is not part of this repository's `src`. We model it as the pair it
binds, which preserves exactly the bit-for-bit reproducibility used at
finalize time. -/
def commit (minOut : Nat) (salt : List Nat) : Nat × List Nat :=
  (minOut, salt)

/-- The ledger-resident Pending Order record, as returned by `sdk.get_order`
and consumed in `main.rs` (fields `d_out`, `c_min`, `deadline`, `trader` are
read at lines 171 to 173 and 307). -/
structure PendingOrder where
  trader : Pubkey
  dOut : Nat
  cMin : Nat × List Nat
  deadline : Nat
deriving DecidableEq

/-- Finalize parameters, mirroring `FinalizeParamsIx` as filled in `main.rs`
(for example lines 165 to 177). -/
structure FinalizeParams where
  settleSigner : Pubkey
  orderOwner : Pubkey
  unwrapWsol : Bool
  minOut : Nat
  salt : List Nat
  output : Nat
  commitment : Nat × List Nat
  deadline : Nat
  currentSlot : Nat
deriving DecidableEq

/-- Remove-liquidity parameters, mirroring `RemoveLiquidityParamsIx` as filled
in `main.rs` lines 1135 to 1140. -/
structure RemoveLiquidityParams where
  user : Pubkey
  amountLp : Nat
  minAmountX : Nat
  minAmountY : Nat
deriving DecidableEq

/-- Ledger instructions appearing in the assembled transactions of the
examples. The darklake program instructions (`swap_ix`, `finalize_ix`,
`remove_liquidity_ix`) are carried with the parameters the examples pass to
the SDK builders; the SPL and system instructions carry the accounts the
builders in `utils.rs` pass. -/
inductive Ix
  | createAtaIdempotent (fundingPayer owner mint tokenProgram : Pubkey)
  | transferLamports (source destination : Pubkey) (lamports : Nat)
  | syncNative (tokenProgram account : Pubkey)
  | closeAccount (tokenProgram account destination owner : Pubkey)
  | computeBudgetSetLimit (units : Nat)
  | swapIx (params : SwapParams)
  | finalizeIx (params : FinalizeParams)
  | removeLiquidityIx (params : RemoveLiquidityParams)
deriving DecidableEq

/-- Mirrors `get_wrap_sol_to_wsol_instructions` (`utils.rs` lines 15 to 48):
idempotent create of the payer WSOL associated token account, transfer of the
lamports in, then sync. The Rust function returns `Result` but the only
fallible call, `sync_native`, cannot fail on the constant valid program id, so
the model is total. -/
def getWrapSolToWsolInstructions (payer : Pubkey) (amountInLamports : Nat) :
    List Ix :=
  let tokenMintWsol := Pubkey.nativeMint
  let tokenProgramId := Pubkey.splTokenProgram
  let wsolAta := getAssociatedTokenAddress payer tokenMintWsol
  [ Ix.createAtaIdempotent payer payer tokenMintWsol tokenProgramId,
    Ix.transferLamports payer wsolAta amountInLamports,
    Ix.syncNative tokenProgramId wsolAta ]

/-- Mirrors `get_unwrap_wsol_to_sol_instructions` (`utils.rs` lines 50 to 75):
sync the WSOL associated token account, then close it sending the lamports
back to the payer. -/
def getUnwrapWsolToSolInstructions (payer : Pubkey) : List Ix :=
  let tokenMintWsol := Pubkey.nativeMint
  let tokenProgramId := Pubkey.splTokenProgram
  let wsolAta := getAssociatedTokenAddress payer tokenMintWsol
  [ Ix.syncNative tokenProgramId wsolAta,
    Ix.closeAccount tokenProgramId wsolAta payer payer ]

/-- Instruction list of the swap transaction in `manual_swap_from_sol`
(`main.rs` lines 693 to 695): the wrap instructions, then the swap
instruction pushed at the end. -/
def manualSwapFromSolInstructions (payer : Pubkey) (solAmount : Nat)
    (swapInstruction : Ix) : List Ix :=
  getWrapSolToWsolInstructions payer solAmount ++ [swapInstruction]

/-- Finalize parameters built in `manual_swap_to_sol` (`main.rs` lines 896 to
908): the output side is WSOL and the example requests unwrapping through the
`unwrap_wsol: true` flag. -/
def manualSwapToSolFinalizeParams (user : Pubkey) (minOut : Nat)
    (salt : List Nat) (order : PendingOrder) (currentSlot : Nat) :
    FinalizeParams :=
  { settleSigner := user
    orderOwner := user
    unwrapWsol := true
    minOut := minOut
    salt := salt
    output := order.dOut
    commitment := order.cMin
    deadline := order.deadline
    currentSlot := currentSlot }

/-- Instruction list of the finalize transaction in `manual_swap_to_sol`
(`main.rs` line 919): `let all_instructions = vec![finalize_ix];` with no
unwrap instructions appended. -/
def manualSwapToSolInstructions (finalizeInstruction : Ix) : List Ix :=
  [finalizeInstruction]

/-- Instruction list of the transaction in `manual_remove_liquidity_sol`
(`main.rs` lines 1127 to 1154): the idempotent WSOL account creation, the
remove-liquidity instruction, then the unwrap instructions extended at the
end. -/
def manualRemoveLiquiditySolInstructions (user : Pubkey)
    (removeLiquidityInstruction : Ix) : List Ix :=
  Ix.createAtaIdempotent user user Pubkey.nativeMint Pubkey.splTokenProgram ::
    removeLiquidityInstruction :: getUnwrapWsolToSolInstructions user

/-- Errors of the ledger execution model. -/
inductive ExecErr
  | accountAlreadyExists (account : Pubkey)
  | accountMissing (account : Pubkey)
deriving DecidableEq

/-- Modelled from the spec: the on-ledger effect of the SPL instructions used
by the wrap and unwrap builders, over the set of existing token accounts. The
executing programs are external to this repository; per the spec (section 4.5)
the idempotent create-if-absent instruction succeeds when the account already
exists, while sync and close require the account to exist. Instructions with
no account-creation effect leave the set unchanged. -/
def execIx (accounts : List Pubkey) : Ix → Except ExecErr (List Pubkey)
  | Ix.createAtaIdempotent _ owner mint _ =>
      let a := getAssociatedTokenAddress owner mint
      if a ∈ accounts then Except.ok accounts else Except.ok (a :: accounts)
  | Ix.transferLamports _ _ _ => Except.ok accounts
  | Ix.syncNative _ account =>
      if account ∈ accounts then Except.ok accounts
      else Except.error (ExecErr.accountMissing account)
  | Ix.closeAccount _ account _ _ =>
      if account ∈ accounts then Except.ok (accounts.erase account)
      else Except.error (ExecErr.accountMissing account)
  | _ => Except.ok accounts

/-- Sequential execution of an instruction list, stopping at the first
failing instruction. -/
def execIxs (accounts : List Pubkey) : List Ix → Except ExecErr (List Pubkey)
  | [] => Except.ok accounts
  | ix :: rest =>
      match execIx accounts ix with
      | Except.ok st => execIxs st rest
      | Except.error e => Except.error e

/-- The tagged Resolution Action of the spec, section 3. -/
inductive ResolutionAction
  | settle
  | cancel
  | slash
deriving DecidableEq

/-- Modelled from the spec: legality of `Pending to Settled` (section 4.4).
The transition guard is implemented by the darklake on-chain program, not in
this repository's `src`: settle is legal when the current slot is at most the
deadline, the realized output is at least `min_out`, and the commitment
recomputation matches `c_min`. -/
def legalSettle (o : PendingOrder) (minOut : Nat) (salt : List Nat)
    (currentSlot : Nat) : Prop :=
  currentSlot ≤ o.deadline ∧ minOut ≤ o.dOut ∧ commit minOut salt = o.cMin

/-- Modelled from the spec: legality of `Pending to Cancelled` (section 4.4),
implemented outside `src`: cancel is legal when the realized output fails the
slippage bound and the current slot is at most the deadline. -/
def legalCancel (o : PendingOrder) (minOut : Nat) (currentSlot : Nat) : Prop :=
  o.dOut < minOut ∧ currentSlot ≤ o.deadline

/-- Modelled from the spec: legality of `Pending to Slashed` (section 4.4),
implemented outside `src`: slash is legal only when the current slot is past
the deadline. -/
def legalSlash (o : PendingOrder) (currentSlot : Nat) : Prop :=
  o.deadline < currentSlot

/-- Which legality guard an action is subject to. -/
def legalFor (o : PendingOrder) (minOut : Nat) (salt : List Nat)
    (currentSlot : Nat) : ResolutionAction → Prop
  | ResolutionAction.settle => legalSettle o minOut salt currentSlot
  | ResolutionAction.cancel => legalCancel o minOut currentSlot
  | ResolutionAction.slash => legalSlash o currentSlot

/-- Modelled from the spec: the decision procedure of the Order Lifecycle
State Machine (section 4.4), implemented in the darklake SDK outside this
repository's `src`. Deadline expiry is evaluated first (the tie-break rule of
the spec), then output sufficiency. -/
def decideAction (o : PendingOrder) (minOut : Nat) (currentSlot : Nat) :
    ResolutionAction :=
  if o.deadline < currentSlot then ResolutionAction.slash
  else if minOut ≤ o.dOut then ResolutionAction.settle
  else ResolutionAction.cancel

/-- The order lifecycle states of the spec, section 4.4. -/
inductive OrderState
  | unopened
  | pending (o : PendingOrder)
  | settled
  | cancelled
  | slashed
deriving DecidableEq

/-- Errors of an attempted lifecycle transition, following the taxonomy of
the spec, section 7. -/
inductive ResolveErr
  | invalidState
  | prematureSlash
  | pastDeadline
  | outputTooLow
  | outputSufficient
  | commitmentMismatch
deriving DecidableEq

/-- Modelled from the spec: every illegal-transition error of section 7 is
fatal, not retryable (`InvalidState` is fatal; a premature slash must be
rejected as a logic error, not silently retried). -/
def ResolveErr.retryable : ResolveErr → Bool
  | ResolveErr.invalidState => false
  | ResolveErr.prematureSlash => false
  | ResolveErr.pastDeadline => false
  | ResolveErr.outputTooLow => false
  | ResolveErr.outputSufficient => false
  | ResolveErr.commitmentMismatch => false

/-- Modelled from the spec: the transition function of the Order Lifecycle
State Machine (section 4.4), implemented by the darklake on-chain program
outside this repository's `src`. Acting on `Unopened` or a terminal state
fails with `invalidState`; each `Pending` transition enforces its guard. -/
def applyAction (s : OrderState) (a : ResolutionAction) (minOut : Nat)
    (salt : List Nat) (currentSlot : Nat) : Except ResolveErr OrderState :=
  match s with
  | OrderState.pending o =>
      match a with
      | ResolutionAction.settle =>
          if currentSlot ≤ o.deadline then
            if minOut ≤ o.dOut then
              if commit minOut salt = o.cMin then Except.ok OrderState.settled
              else Except.error ResolveErr.commitmentMismatch
            else Except.error ResolveErr.outputTooLow
          else Except.error ResolveErr.pastDeadline
      | ResolutionAction.cancel =>
          if currentSlot ≤ o.deadline then
            if o.dOut < minOut then Except.ok OrderState.cancelled
            else Except.error ResolveErr.outputSufficient
          else Except.error ResolveErr.pastDeadline
      | ResolutionAction.slash =>
          if o.deadline < currentSlot then Except.ok OrderState.slashed
          else Except.error ResolveErr.prematureSlash
  | _ => Except.error ResolveErr.invalidState

/-- Reachable order states: the lifecycle starts at `Unopened`, a successful
swap transaction creates a `Pending` order, and successful resolutions move
through `applyAction`. -/
inductive Reachable : OrderState → Prop
  | start : Reachable OrderState.unopened
  | swapOpens (o : PendingOrder) : Reachable (OrderState.pending o)
  | resolves {s s2 : OrderState} (a : ResolutionAction) (minOut : Nat)
      (salt : List Nat) (currentSlot : Nat) : Reachable s →
      applyAction s a minOut salt currentSlot = Except.ok s2 → Reachable s2

/-- Read outcomes of the Order Store Accessor, spec section 4.2. -/
inductive ReadErr
  | notFound
  | decodeError
deriving DecidableEq

/-- Outcome of one run of the retry loop: how many `get_order` attempts were
made, the sleeps performed between attempts (in seconds), and the final
result. -/
structure PollResult where
  attemptsMade : Nat
  sleepsSeconds : List Nat
  outcome : Except ReadErr PendingOrder

/-- Mirrors the loop body of `for attempt in 1..=5` in `manual_swap`
(`main.rs` lines 122 to 146): on a successful read the loop breaks with the
order; on an error, if `attempt < 5` it sleeps 5 seconds and retries,
otherwise it returns the error. `fuel` counts the remaining iterations of the
bounded range, so the loop entry is `pollGo read 5 1`. -/
def pollGo (read : Nat → Except ReadErr PendingOrder) :
    (fuel attempt : Nat) → PollResult
  | 0, _ =>
      { attemptsMade := 0, sleepsSeconds := [],
        outcome := Except.error ReadErr.notFound }
  | fuel + 1, attempt =>
      match read attempt with
      | Except.ok o =>
          { attemptsMade := 1, sleepsSeconds := [], outcome := Except.ok o }
      | Except.error e =>
          if attempt < 5 then
            let r := pollGo read fuel (attempt + 1)
            { attemptsMade := r.attemptsMade + 1,
              sleepsSeconds := 5 :: r.sleepsSeconds,
              outcome := r.outcome }
          else
            { attemptsMade := 1, sleepsSeconds := [],
              outcome := Except.error e }

/-- The polling loop of `manual_swap` as entered at `main.rs` line 124:
attempts numbered 1 through 5. -/
def manualSwapPoll (read : Nat → Except ReadErr PendingOrder) : PollResult :=
  pollGo read 5 1

/-- How many resolving (finalize) transactions `manual_swap` submits after
the poll: the function returns the error before any finalize instruction is
built when the poll fails (`main.rs` line 141), and builds exactly one
finalize transaction when the poll succeeds. -/
def manualSwapResolvingTxCount
    (read : Nat → Except ReadErr PendingOrder) : Nat :=
  match (manualSwapPoll read).outcome with
  | Except.ok _ => 1
  | Except.error _ => 0

/-- A compiled versioned transaction, reduced to the facts the examples fix:
the fee payer passed as the first argument of `v0::Message::try_compile`, the
signer accounts required by the contained instructions, and the keys whose
signatures are actually attached. -/
structure CompiledTx where
  feePayer : Pubkey
  ixSigners : List Pubkey
  signatures : List Pubkey
deriving DecidableEq

/-- The required signer set of a compiled message: the fee payer is always a
required signer, followed by the signer accounts of the instructions. -/
def requiredSigners (tx : CompiledTx) : List Pubkey :=
  tx.feePayer :: tx.ixSigners

/-- A transaction carries a valid signer set when every required signer has
attached a signature. -/
def hasValidSignerSet (tx : CompiledTx) : Prop :=
  ∀ p ∈ requiredSigners tx, p ∈ tx.signatures

/-- The finalize transaction assembled in `manual_swap_different_settler`
(`main.rs` lines 334 to 346): the message is compiled with the order owner
(`user_keypair.pubkey()`) as fee payer at line 335, the finalize instruction
names the settler as `settle_signer` (line 313), and the attached signature
vector is solely the settler signature (line 346). -/
def manualDifferentSettlerFinalizeTx (owner settler : Pubkey) : CompiledTx :=
  { feePayer := owner
    ixSigners := [settler]
    signatures := [settler] }

/-- Unsigned 64-bit saturating subtraction, `a.saturating_sub(b)`: the
difference clamped at zero. -/
def saturatingSub (a b : Nat) : Nat :=
  if b ≤ a then a - b else 0

/-- Modelled from the spec: the slots-remaining computation
`order.deadline.saturating_sub(current_slot)` of section 4.4; in `src` it
appears only in the commented-out slash-testing block of `manual_swap`
(`main.rs` line 155). -/
def slotDifference (deadline currentSlot : Nat) : Nat :=
  saturatingSub deadline currentSlot

/-- Errors of `load_keypair` (`main.rs` lines 40 to 58), after file reading
and JSON parsing have produced a byte array. -/
inductive KeyErr
  | invalidLength (got : Nat)
  | invalidKeyBytes
deriving DecidableEq

/-- Mirrors the tail of `load_keypair` (`main.rs` lines 47 to 57) on the
parsed JSON byte array: bail out when the length is not exactly 64, otherwise
hand the bytes to `Keypair::try_from`, an external fallible constructor
modelled as the `tryFrom` argument. -/
def loadKeypair (tryFrom : List Nat → Option (List Nat))
    (keyBytes : List Nat) : Except KeyErr (List Nat) :=
  if keyBytes.length ≠ 64 then
    Except.error (KeyErr.invalidLength keyBytes.length)
  else
    match tryFrom keyBytes with
    | some kp => Except.ok kp
    | none => Except.error KeyErr.invalidKeyBytes

/-- C1: for every Pending Order (well-formed, so its stored commitment is the
one recomputed from the intent) and every observed current slot, exactly one
of Settle, Cancel, Slash is the legal resolution action; the decision
procedure picks that legal action; and when the cancel condition
(`d_out < min_out`) and the slash condition (`current_slot > deadline`) hold
simultaneously the chosen action is Slash, deadline expiry being evaluated
before output sufficiency — including Scenario C of the spec
(`min_out = 1`, `d_out = 500`, `deadline = 1000`, `current_slot = 1001`). -/
theorem c1_exactly_one_action_slash_precedence
    (o : PendingOrder) (minOut : Nat) (salt : List Nat) (slot : Nat)
    (wf : o.cMin = commit minOut salt) :
    (∃! a : ResolutionAction, legalFor o minOut salt slot a) ∧
    legalFor o minOut salt slot (decideAction o minOut slot) ∧
    (o.dOut < minOut → o.deadline < slot →
      decideAction o minOut slot = ResolutionAction.slash) ∧
    decideAction ⟨Pubkey.raw 0, 500, commit 1 [], 1000⟩ 1 1001 =
      ResolutionAction.slash := by
  refine ⟨?_, ?_, ?_, rfl⟩
  · by_cases hd : o.deadline < slot
    · refine ⟨ResolutionAction.slash, hd, ?_⟩
      intro a ha
      cases a with
      | settle => exact absurd ha.1 (by omega)
      | cancel => exact absurd ha.2 (by omega)
      | slash => rfl
    · by_cases hm : minOut ≤ o.dOut
      · refine ⟨ResolutionAction.settle, ⟨by omega, hm, wf.symm⟩, ?_⟩
        intro a ha
        cases a with
        | settle => rfl
        | cancel => exact absurd ha.1 (by omega)
        | slash => exact absurd ha hd
      · refine ⟨ResolutionAction.cancel, ⟨by omega, by omega⟩, ?_⟩
        intro a ha
        cases a with
        | settle => exact absurd ha.2.1 (by omega)
        | cancel => rfl
        | slash => exact absurd ha hd
  · by_cases hd : o.deadline < slot
    · simp only [decideAction, if_pos hd, legalFor]
      exact hd
    · by_cases hm : minOut ≤ o.dOut
      · simp only [decideAction, if_neg hd, if_pos hm, legalFor, legalSettle]
        exact ⟨by omega, hm, wf.symm⟩
      · simp only [decideAction, if_neg hd, if_neg hm, legalFor, legalCancel]
        exact ⟨by omega, by omega⟩
  · intro _ hd
    simp [decideAction, hd]

/-- Witness for C1 at Scenario C: the well-formedness hypothesis holds for
the concrete order and the theorem applies. -/
theorem c1_scenario_witness :
    (⟨Pubkey.raw 0, 500, commit 1 [], 1000⟩ : PendingOrder).cMin =
      commit 1 [] ∧
    ((∃! a : ResolutionAction,
        legalFor ⟨Pubkey.raw 0, 500, commit 1 [], 1000⟩ 1 [] 1001 a) ∧
      legalFor ⟨Pubkey.raw 0, 500, commit 1 [], 1000⟩ 1 [] 1001
        (decideAction ⟨Pubkey.raw 0, 500, commit 1 [], 1000⟩ 1 1001) ∧
      ((⟨Pubkey.raw 0, 500, commit 1 [], 1000⟩ : PendingOrder).dOut < 1 →
        (⟨Pubkey.raw 0, 500, commit 1 [], 1000⟩ : PendingOrder).deadline < 1001 →
        decideAction ⟨Pubkey.raw 0, 500, commit 1 [], 1000⟩ 1 1001 =
          ResolutionAction.slash) ∧
      decideAction ⟨Pubkey.raw 0, 500, commit 1 [], 1000⟩ 1 1001 =
        ResolutionAction.slash) :=
  ⟨rfl, c1_exactly_one_action_slash_precedence
    ⟨Pubkey.raw 0, 500, commit 1 [], 1000⟩ 1 [] 1001 rfl⟩

/-- C2: for every well-formed Pending Order observed at a slot not past the
deadline, the decision is Settle exactly when the realized output reaches
`min_out` (and the commitment recomputation matches `c_min`), and Cancel
exactly when the output falls short — including Scenario A
(`min_out = 1`, `d_out = 500`, `deadline = 1000`, `current_slot = 900`,
Settle) and Scenario B (`min_out = 1000`, same order data, Cancel). -/
theorem c2_settle_cancel_before_deadline
    (o : PendingOrder) (minOut : Nat) (salt : List Nat) (slot : Nat)
    (wf : o.cMin = commit minOut salt) (hple : slot ≤ o.deadline) :
    (decideAction o minOut slot = ResolutionAction.settle ↔
      minOut ≤ o.dOut ∧ commit minOut salt = o.cMin) ∧
    (decideAction o minOut slot = ResolutionAction.cancel ↔ o.dOut < minOut) ∧
    decideAction ⟨Pubkey.raw 0, 500, commit 1 [], 1000⟩ 1 900 =
      ResolutionAction.settle ∧
    decideAction ⟨Pubkey.raw 0, 500, commit 1000 [], 1000⟩ 1000 900 =
      ResolutionAction.cancel := by
  have hd : ¬ o.deadline < slot := by omega
  by_cases hm : minOut ≤ o.dOut
  · refine ⟨?_, ?_, rfl, rfl⟩
    · exact iff_of_true (by simp [decideAction, hd, hm]) ⟨hm, wf.symm⟩
    · exact iff_of_false (by simp [decideAction, hd, hm]) (by omega)
  · refine ⟨?_, ?_, rfl, rfl⟩
    · exact iff_of_false (by simp [decideAction, hd, hm]) (fun h => hm h.1)
    · exact iff_of_true (by simp [decideAction, hd, hm]) (by omega)

/-- Witness for C2 at Scenario A: the hypotheses hold for the concrete order
and slot 900 and the theorem applies. -/
theorem c2_scenario_witness :
    (⟨Pubkey.raw 0, 500, commit 1 [], 1000⟩ : PendingOrder).cMin =
      commit 1 [] ∧
    900 ≤ (⟨Pubkey.raw 0, 500, commit 1 [], 1000⟩ : PendingOrder).deadline ∧
    ((decideAction ⟨Pubkey.raw 0, 500, commit 1 [], 1000⟩ 1 900 =
        ResolutionAction.settle ↔
      1 ≤ (⟨Pubkey.raw 0, 500, commit 1 [], 1000⟩ : PendingOrder).dOut ∧
        commit 1 [] =
          (⟨Pubkey.raw 0, 500, commit 1 [], 1000⟩ : PendingOrder).cMin) ∧
      (decideAction ⟨Pubkey.raw 0, 500, commit 1 [], 1000⟩ 1 900 =
        ResolutionAction.cancel ↔
        (⟨Pubkey.raw 0, 500, commit 1 [], 1000⟩ : PendingOrder).dOut < 1) ∧
      decideAction ⟨Pubkey.raw 0, 500, commit 1 [], 1000⟩ 1 900 =
        ResolutionAction.settle ∧
      decideAction ⟨Pubkey.raw 0, 500, commit 1000 [], 1000⟩ 1000 900 =
        ResolutionAction.cancel) :=
  ⟨rfl, by decide, c2_settle_cancel_before_deadline
    ⟨Pubkey.raw 0, 500, commit 1 [], 1000⟩ 1 [] 900 rfl (by decide)⟩

/-- C3: in every reachable state of the order lifecycle state machine, a
slash attempt while the current slot is at most the deadline of a pending
order is rejected with a non-retryable error, never accepted: premature
slashing is impossible. -/
theorem c3_no_premature_slash
    (s : OrderState) (hr : Reachable s) (minOut : Nat) (salt : List Nat)
    (slot : Nat) (hs : ∀ o, s = OrderState.pending o → slot ≤ o.deadline) :
    ∃ e, applyAction s ResolutionAction.slash minOut salt slot =
      Except.error e ∧ e.retryable = false := by
  clear hr
  cases s with
  | pending o =>
      have hle := hs o rfl
      refine ⟨ResolveErr.prematureSlash, ?_, rfl⟩
      simp [applyAction, show ¬ o.deadline < slot by omega]
  | unopened => exact ⟨ResolveErr.invalidState, rfl, rfl⟩
  | settled => exact ⟨ResolveErr.invalidState, rfl, rfl⟩
  | cancelled => exact ⟨ResolveErr.invalidState, rfl, rfl⟩
  | slashed => exact ⟨ResolveErr.invalidState, rfl, rfl⟩

/-- Witness for C3: a pending order reached by a successful swap, observed at
slot 900 before its deadline of 1000; the theorem applies. -/
theorem c3_premature_slash_witness :
    Reachable (OrderState.pending ⟨Pubkey.raw 0, 500, commit 1 [], 1000⟩) ∧
    (∀ o, OrderState.pending ⟨Pubkey.raw 0, 500, commit 1 [], 1000⟩ =
      OrderState.pending o → 900 ≤ o.deadline) ∧
    ∃ e, applyAction
        (OrderState.pending ⟨Pubkey.raw 0, 500, commit 1 [], 1000⟩)
        ResolutionAction.slash 1 [] 900 = Except.error e ∧
      e.retryable = false :=
  ⟨Reachable.swapOpens _, fun o ho => by cases ho; decide,
    c3_no_premature_slash _ (Reachable.swapOpens _) 1 [] 900
      (fun o ho => by cases ho; decide)⟩

/-- C4, evaluated at concrete distinct keys (order owner `raw 0`, settler
`raw 1`): the finalize transaction assembled by
`manual_swap_different_settler` has the order owner, not the settler, as fee
payer, while its only attached signature is the settler signature, so the
required signer set is not covered — the code diverges from the claim that
the settler is both fee payer and sole required signer. -/
theorem c4_manual_settler_not_fee_payer :
    (manualDifferentSettlerFinalizeTx (Pubkey.raw 0) (Pubkey.raw 1)).feePayer =
      Pubkey.raw 0 ∧
    (manualDifferentSettlerFinalizeTx (Pubkey.raw 0) (Pubkey.raw 1)).feePayer ≠
      Pubkey.raw 1 ∧
    (manualDifferentSettlerFinalizeTx (Pubkey.raw 0)
      (Pubkey.raw 1)).signatures = [Pubkey.raw 1] ∧
    ¬ hasValidSignerSet
      (manualDifferentSettlerFinalizeTx (Pubkey.raw 0) (Pubkey.raw 1)) := by
  refine ⟨rfl, by decide, rfl, fun h => ?_⟩
  have h0 := h (Pubkey.raw 0)
    (by simp [requiredSigners, manualDifferentSettlerFinalizeTx])
  simp [manualDifferentSettlerFinalizeTx] at h0

/-- C5: when the order never materializes (every read in the attempt window
fails with `NotFound`), the polling loop of `manual_swap` performs exactly 5
read attempts separated by fixed 5-second sleeps (a constant interval, not
exponential backoff), surfaces the final failure to the caller, and submits
no resolving transaction. -/
theorem c5_poll_five_attempts_fixed_spacing
    (read : Nat → Except ReadErr PendingOrder)
    (h : ∀ a, 1 ≤ a → a ≤ 5 → read a = Except.error ReadErr.notFound) :
    manualSwapPoll read =
      { attemptsMade := 5, sleepsSeconds := [5, 5, 5, 5],
        outcome := Except.error ReadErr.notFound } ∧
    manualSwapResolvingTxCount read = 0 := by
  have h1 := h 1 (by omega) (by omega)
  have h2 := h 2 (by omega) (by omega)
  have h3 := h 3 (by omega) (by omega)
  have h4 := h 4 (by omega) (by omega)
  have h5 := h 5 (by omega) (by omega)
  have hpoll : manualSwapPoll read =
      { attemptsMade := 5, sleepsSeconds := [5, 5, 5, 5],
        outcome := Except.error ReadErr.notFound } := by
    simp [manualSwapPoll, pollGo, h1, h2, h3, h4, h5]
  exact ⟨hpoll, by simp [manualSwapResolvingTxCount, hpoll]⟩

/-- Witness for C5: the constant `NotFound` read satisfies the hypothesis and
the theorem applies. -/
theorem c5_never_materializes_witness :
    (∀ a : Nat, 1 ≤ a → a ≤ 5 →
      (fun _ : Nat =>
        (Except.error ReadErr.notFound : Except ReadErr PendingOrder)) a =
        Except.error ReadErr.notFound) ∧
    (manualSwapPoll (fun _ => Except.error ReadErr.notFound) =
      { attemptsMade := 5, sleepsSeconds := [5, 5, 5, 5],
        outcome := Except.error ReadErr.notFound } ∧
    manualSwapResolvingTxCount (fun _ => Except.error ReadErr.notFound) = 0) :=
  ⟨fun _ _ _ => rfl,
    c5_poll_five_attempts_fixed_spacing _ (fun _ _ _ => rfl)⟩

/-- C6 counterexample: with every read failing as `DecodeError`, the loop of
`manual_swap` does not fail on the first attempt; it makes all 5 attempts and
sleeps four times, because the code retries every error uniformly rather than
failing fast on `DecodeError`. -/
theorem c6_decode_error_retried_counterexample :
    manualSwapPoll (fun _ => Except.error ReadErr.decodeError) =
      { attemptsMade := 5, sleepsSeconds := [5, 5, 5, 5],
        outcome := Except.error ReadErr.decodeError } ∧
    (manualSwapPoll
      (fun _ => Except.error ReadErr.decodeError)).attemptsMade ≠ 1 ∧
    (manualSwapPoll
      (fun _ => Except.error ReadErr.decodeError)).sleepsSeconds ≠ [] :=
  ⟨rfl, by decide, by decide⟩

/-- C6 as amended: the polling loop treats every read error uniformly —
`DecodeError` is slept on and retried exactly like `NotFound` — and after the
5-attempt budget the error of the final attempt is surfaced. -/
theorem c6_uniform_error_retry
    (read : Nat → Except ReadErr PendingOrder)
    (h : ∀ a, 1 ≤ a → a ≤ 5 → ∃ e, read a = Except.error e) :
    ∃ e, read 5 = Except.error e ∧
      manualSwapPoll read =
        { attemptsMade := 5, sleepsSeconds := [5, 5, 5, 5],
          outcome := Except.error e } := by
  obtain ⟨e1, h1⟩ := h 1 (by omega) (by omega)
  obtain ⟨e2, h2⟩ := h 2 (by omega) (by omega)
  obtain ⟨e3, h3⟩ := h 3 (by omega) (by omega)
  obtain ⟨e4, h4⟩ := h 4 (by omega) (by omega)
  obtain ⟨e5, h5⟩ := h 5 (by omega) (by omega)
  exact ⟨e5, h5, by simp [manualSwapPoll, pollGo, h1, h2, h3, h4, h5]⟩

/-- Witness for the amended C6: all reads failing with `DecodeError`
satisfies the hypothesis and the theorem applies. -/
theorem c6_uniform_error_retry_witness :
    (∀ a : Nat, 1 ≤ a → a ≤ 5 →
      ∃ e, (fun _ : Nat =>
        (Except.error ReadErr.decodeError : Except ReadErr PendingOrder)) a =
        Except.error e) ∧
    ∃ e, (fun _ : Nat =>
        (Except.error ReadErr.decodeError : Except ReadErr PendingOrder)) 5 =
        Except.error e ∧
      manualSwapPoll (fun _ => Except.error ReadErr.decodeError) =
        { attemptsMade := 5, sleepsSeconds := [5, 5, 5, 5],
          outcome := Except.error e } :=
  ⟨fun _ _ _ => ⟨ReadErr.decodeError, rfl⟩,
    c6_uniform_error_retry _ (fun _ _ _ => ⟨ReadErr.decodeError, rfl⟩)⟩

/-- C7: for every payer and lamport amount, the wrap builder produces exactly
the sequence create-if-absent WSOL account, transfer of the lamports, sync;
`manual_swap_from_sol` prepends that sequence before the swap instruction;
and executing the sequence succeeds from any ledger state, also a second time
on the resulting state, because the account creation is idempotent. -/
theorem c7_wrap_instruction_sequence_idempotent
    (payer : Pubkey) (amount : Nat) (st : List Pubkey)
    (swapInstruction : Ix) :
    getWrapSolToWsolInstructions payer amount =
      [Ix.createAtaIdempotent payer payer Pubkey.nativeMint
        Pubkey.splTokenProgram,
       Ix.transferLamports payer
        (getAssociatedTokenAddress payer Pubkey.nativeMint) amount,
       Ix.syncNative Pubkey.splTokenProgram
        (getAssociatedTokenAddress payer Pubkey.nativeMint)] ∧
    manualSwapFromSolInstructions payer amount swapInstruction =
      getWrapSolToWsolInstructions payer amount ++ [swapInstruction] ∧
    (∃ st1, execIxs st (getWrapSolToWsolInstructions payer amount) =
        Except.ok st1 ∧
      ∃ st2, execIxs st1 (getWrapSolToWsolInstructions payer amount) =
        Except.ok st2) := by
  refine ⟨rfl, rfl, ?_⟩
  by_cases hmem : getAssociatedTokenAddress payer Pubkey.nativeMint ∈ st
  · refine ⟨st, ?_, st, ?_⟩ <;>
      simp [getWrapSolToWsolInstructions, execIxs, execIx, hmem]
  · refine ⟨getAssociatedTokenAddress payer Pubkey.nativeMint :: st, ?_,
      getAssociatedTokenAddress payer Pubkey.nativeMint :: st, ?_⟩ <;>
      simp [getWrapSolToWsolInstructions, execIxs, execIx, hmem]

/-- C8 counterexample at a concrete finalize with native output and
unwrapping requested: `manual_swap_to_sol` sets `unwrap_wsol` in the finalize
parameters, yet the assembled transaction is the finalize instruction alone —
the unwrap pair (sync, close) is not appended after it. -/
theorem c8_no_unwrap_after_finalize_counterexample :
    (manualSwapToSolFinalizeParams (Pubkey.raw 0) 1 [1, 2, 3, 4, 5, 6, 7, 8]
      ⟨Pubkey.raw 0, 500, commit 1 [1, 2, 3, 4, 5, 6, 7, 8], 1000⟩
      900).unwrapWsol = true ∧
    manualSwapToSolInstructions
      (Ix.finalizeIx (manualSwapToSolFinalizeParams (Pubkey.raw 0) 1
        [1, 2, 3, 4, 5, 6, 7, 8]
        ⟨Pubkey.raw 0, 500, commit 1 [1, 2, 3, 4, 5, 6, 7, 8], 1000⟩ 900)) =
      [Ix.finalizeIx (manualSwapToSolFinalizeParams (Pubkey.raw 0) 1
        [1, 2, 3, 4, 5, 6, 7, 8]
        ⟨Pubkey.raw 0, 500, commit 1 [1, 2, 3, 4, 5, 6, 7, 8], 1000⟩ 900)] ∧
    manualSwapToSolInstructions
      (Ix.finalizeIx (manualSwapToSolFinalizeParams (Pubkey.raw 0) 1
        [1, 2, 3, 4, 5, 6, 7, 8]
        ⟨Pubkey.raw 0, 500, commit 1 [1, 2, 3, 4, 5, 6, 7, 8], 1000⟩ 900)) ≠
      Ix.finalizeIx (manualSwapToSolFinalizeParams (Pubkey.raw 0) 1
        [1, 2, 3, 4, 5, 6, 7, 8]
        ⟨Pubkey.raw 0, 500, commit 1 [1, 2, 3, 4, 5, 6, 7, 8], 1000⟩ 900) ::
        getUnwrapWsolToSolInstructions (Pubkey.raw 0) :=
  ⟨rfl, rfl, by decide⟩

/-- C8 as amended: with a native output and unwrapping requested, the
finalize flow carries the request through the `unwrap_wsol` flag of the
finalize parameters and assembles the transaction from the finalize
instruction alone; the unwrap instruction pair (sync, then close-to-reclaim)
is instead appended after the remove-liquidity instruction in the native
remove-liquidity flow. -/
theorem c8_unwrap_flag_and_remove_liquidity
    (user : Pubkey) (minOut : Nat) (salt : List Nat) (order : PendingOrder)
    (slot : Nat) (finalizeInstruction removeLiquidityInstruction : Ix) :
    (manualSwapToSolFinalizeParams user minOut salt order slot).unwrapWsol =
      true ∧
    manualSwapToSolInstructions finalizeInstruction =
      [finalizeInstruction] ∧
    getUnwrapWsolToSolInstructions user =
      [Ix.syncNative Pubkey.splTokenProgram
        (getAssociatedTokenAddress user Pubkey.nativeMint),
       Ix.closeAccount Pubkey.splTokenProgram
        (getAssociatedTokenAddress user Pubkey.nativeMint) user user] ∧
    manualRemoveLiquiditySolInstructions user removeLiquidityInstruction =
      [Ix.createAtaIdempotent user user Pubkey.nativeMint
        Pubkey.splTokenProgram, removeLiquidityInstruction] ++
        getUnwrapWsolToSolInstructions user :=
  ⟨rfl, rfl, rfl, rfl⟩

/-- C9: for u64 deadline and current slot, the slots-remaining computation
`deadline.saturating_sub(current_slot)` never underflows or wraps — the
result stays at most the deadline (hence within u64), equals 0 whenever the
current slot has reached the deadline, and is the exact difference
otherwise. -/
theorem c9_saturating_slots_remaining (deadline currentSlot : Nat)
    (hd : deadline < 2 ^ 64) (hc : currentSlot < 2 ^ 64) :
    slotDifference deadline currentSlot ≤ deadline ∧
    slotDifference deadline currentSlot < 2 ^ 64 ∧
    (deadline ≤ currentSlot → slotDifference deadline currentSlot = 0) ∧
    (currentSlot ≤ deadline →
      slotDifference deadline currentSlot + currentSlot = deadline) := by
  have h64 : (2 : Nat) ^ 64 = 18446744073709551616 := by norm_num
  rw [h64] at hd hc
  refine ⟨?_, ?_, fun h => ?_, fun h => ?_⟩
  · unfold slotDifference saturatingSub
    split <;> omega
  · unfold slotDifference saturatingSub
    rw [h64]
    split <;> omega
  · unfold slotDifference saturatingSub
    split <;> omega
  · unfold slotDifference saturatingSub
    split <;> omega

/-- Witness for C9 at deadline 1000 observed at slot 1001 (past the
deadline): the u64 bounds hold and the theorem applies. -/
theorem c9_saturating_witness :
    1000 < 2 ^ 64 ∧ 1001 < 2 ^ 64 ∧
    (slotDifference 1000 1001 ≤ 1000 ∧
      slotDifference 1000 1001 < 2 ^ 64 ∧
      (1000 ≤ 1001 → slotDifference 1000 1001 = 0) ∧
      (1001 ≤ 1000 → slotDifference 1000 1001 + 1001 = 1000)) :=
  ⟨by norm_num, by norm_num,
    c9_saturating_slots_remaining 1000 1001 (by norm_num) (by norm_num)⟩

/-- C10: `load_keypair` rejects every parsed JSON byte array whose length is
not exactly 64 with an invalid-length error, without consulting the keypair
constructor, and returns a keypair only when the array has exactly 64 bytes
and the external `Keypair::try_from` accepts them. -/
theorem c10_load_keypair_length_guard
    (tryFrom : List Nat → Option (List Nat)) (keyBytes : List Nat) :
    (keyBytes.length ≠ 64 →
      loadKeypair tryFrom keyBytes =
        Except.error (KeyErr.invalidLength keyBytes.length)) ∧
    (∀ kp, loadKeypair tryFrom keyBytes = Except.ok kp →
      keyBytes.length = 64 ∧ tryFrom keyBytes = some kp) := by
  constructor
  · intro h
    simp [loadKeypair, h]
  · intro kp h
    by_cases hl : keyBytes.length = 64
    · refine ⟨hl, ?_⟩
      simp only [loadKeypair, hl] at h
      cases htf : tryFrom keyBytes with
      | some k =>
          rw [htf] at h
          have hk : k = kp := by simpa using h
          rw [hk]
      | none =>
          rw [htf] at h
          simp at h
    · simp [loadKeypair, hl] at h

/-- Witness for C10 at the 3-byte array: the length hypothesis holds and the
theorem applies. -/
theorem c10_load_keypair_witness :
    ([1, 2, 3] : List Nat).length ≠ 64 ∧
    loadKeypair (fun b => if b.length = 64 then some b else none) [1, 2, 3] =
      Except.error (KeyErr.invalidLength ([1, 2, 3] : List Nat).length) :=
  ⟨by decide,
    (c10_load_keypair_length_guard
      (fun b => if b.length = 64 then some b else none) [1, 2, 3]).1
      (by decide)⟩
